import Mathlib

/-!
# xdg-desktop-portal-dde: `src/waylandintegration.cpp`

A shallow embedding of the Wayland integration layer: the output registry
(`addOutput`, `removeOutput`, `screens`), the stream negotiation
(`startStreamingOutput`, `startStreamingWindow`, `startStreaming`), the stop
paths (`stopStreaming`, `stopAllStreaming`), the input forwarding gate
(`requestPointerButtonPress`, ...) and the connector classification
(`WaylandOutput::setOutputType`).

Member variables become fields of `State`; every member function becomes a
function from `State` to `State` (plus its return value).  Calls made on the
external collaborators (the screencast capability, the fake-input capability,
`deleteLater` on a stream, `KNotification`) are recorded in log fields of the
state so that theorems can speak about them.
-/

namespace WaylandIntegration

/-! ## Qt strings -/

namespace QString

/-- Case folding as used by Qt's case-insensitive comparisons, restricted to what
can matter when the needle is ASCII: an ASCII letter folds to its lower-case form,
and the only two other code points whose simple case folding is an ASCII letter are
U+017F (long s, folds to `s`) and U+212A (Kelvin sign, folds to `k`).  All other
code points are left alone, so they never compare equal to an ASCII letter. -/
def foldCase (c : Char) : Char :=
  if c = Char.ofNat 0x17F then 's'
  else if c = Char.ofNat 0x212A then 'k'
  else c.toLower

/-- The call `type.startsWith(pre)` with the default `Qt::CaseSensitive`. -/
def startsWith (type pre : String) : Bool :=
  pre.data.isPrefixOf type.data

/-- The call `type.startsWith(pre, Qt::CaseInsensitive)`: both sides are compared
after case folding. -/
def startsWithCI (type pre : String) : Bool :=
  (pre.data.map foldCase).isPrefixOf (type.data.map foldCase)

/-- Substring search on character lists: does `needle` start at some position of
`hay`? -/
def containsAux (needle : List Char) : List Char → Bool
  | [] => needle.isPrefixOf []
  | c :: hay => needle.isPrefixOf (c :: hay) || containsAux needle hay

/-- The call `type.contains(needle)` with the default `Qt::CaseSensitive`. -/
def contains (type needle : String) : Bool :=
  containsAux needle.data type.data

end QString

/-! ## Output classification -/

/-- `WaylandOutput::OutputType`. -/
inductive OutputType where
  | Laptop
  | Monitor
  | Television
  deriving DecidableEq, Repr

/-- The local initializer list `embedded` of `setOutputType`. -/
def embedded : List String := ["LVDS", "IDP", "EDP", "LCD"]

/-- The condition of the `if` after the loop in `setOutputType`: the six
case-sensitive substring tests and the case-sensitive `DP` prefix test, joined by
`||` in source order. -/
def monitorPattern (type : String) : Bool :=
  QString.contains type "VGA" || QString.contains type "DVI" ||
  QString.contains type "HDMI" || QString.contains type "Panel" ||
  QString.contains type "DisplayPort" || QString.startsWith type "DP" ||
  QString.contains type "unknown"

/-- `WaylandOutput::setOutputType(type)`.  The function only touches the member
`m_outputType`, so it is embedded as a function from the old value of that member
to the new one.  The `for` loop with its early `return` is the `List.any`. -/
def setOutputType (_m_outputType : OutputType) (type : String) : OutputType :=
  if embedded.any (fun pre => QString.startsWithCI type pre) then
    OutputType.Laptop
  else if monitorPattern type then
    OutputType.Monitor
  else if QString.contains type "TV" then
    OutputType.Television
  else
    OutputType.Monitor

/-- Upper-casing of a connector string, on the basic Latin letters (connector
names are ASCII); other characters are left alone. -/
def toUpper (s : String) : String := ⟨s.data.map Char.toUpper⟩

/-- Lower-casing of a connector string, on the basic Latin letters. -/
def toLower (s : String) : String := ⟨s.data.map Char.toLower⟩

/-- Specification wording: `type` begins, ignoring case, with one of the
laptop-panel prefixes LVDS, IDP, EDP, LCD. -/
def IsLaptopName (type : String) : Prop :=
  ∃ pre ∈ ["LVDS", "IDP", "EDP", "LCD"],
    pre.data.map QString.foldCase <+: type.data.map QString.foldCase

/-- Specification wording: `type` matches one of the monitor patterns exactly as
written (VGA, DVI, HDMI, Panel, DisplayPort, unknown anywhere; DP at the start). -/
def IsMonitorName (type : String) : Prop :=
  "VGA".data <:+: type.data ∨ "DVI".data <:+: type.data ∨ "HDMI".data <:+: type.data ∨
  "Panel".data <:+: type.data ∨ "DisplayPort".data <:+: type.data ∨
  "DP".data <+: type.data ∨ "unknown".data <:+: type.data

/-- Specification wording: `type` has the substring TV exactly as written. -/
def IsTelevisionName (type : String) : Prop :=
  "TV".data <:+: type.data

/-! ## Qt containers and value types -/

/-- `QMap<K, V>`: the entries in ascending key order, one entry per key. -/
abbrev QMap (κ : Type) (α : Type) := List (κ × α)

/-- The `operator<` of a key type, by which `QMap` orders its entries. -/
class QMapKey (κ : Type) where
  lessThan : κ → κ → Bool

instance : QMapKey Nat := ⟨fun a b => decide (a < b)⟩

/-- Lexicographic comparison of two strings by character code, the `operator<` of
`QString` (the keys used are ASCII, where code units and code points agree). -/
def QString.lessThanAux : List Char → List Char → Bool
  | _, [] => false
  | [], _ :: _ => true
  | a :: as, b :: bs =>
    if a.toNat < b.toNat then true
    else if a.toNat = b.toNat then QString.lessThanAux as bs
    else false

instance : QMapKey String := ⟨fun a b => QString.lessThanAux a.data b.data⟩

namespace QMap

variable {κ α : Type} [QMapKey κ] [DecidableEq κ]

/-- `QMap::insert(key, value)`: replaces the value of an existing key, otherwise
adds the entry at its place in key order. -/
def insert (m : QMap κ α) (key : κ) (value : α) : QMap κ α :=
  match m with
  | [] => [(key, value)]
  | (k, v) :: rest =>
    if QMapKey.lessThan key k then (key, value) :: (k, v) :: rest
    else if key = k then (key, value) :: rest
    else (k, v) :: insert rest key value

/-- Lookup of a key (`QMap::find`). -/
def find? (m : QMap κ α) (key : κ) : Option α :=
  match m with
  | [] => none
  | (k, v) :: rest => if key = k then some v else find? rest key

/-- `QMap::value(key)`: the stored value, or a default-constructed one. -/
def value (m : QMap κ α) (key : κ) (dflt : α) : α :=
  (find? m key).getD dflt

/-- The map that `QMap::take(key)` leaves behind: the entry of `key` is removed. -/
def remove (m : QMap κ α) (key : κ) : QMap κ α :=
  match m with
  | [] => []
  | (k, v) :: rest => if key = k then rest else (k, v) :: remove rest key

/-- `QMap::take(key)`: removes the entry and returns its value, or a
default-constructed value when the key is absent. -/
def take (m : QMap κ α) (key : κ) (dflt : α) : α × QMap κ α :=
  (value m key dflt, remove m key)

/-- `QMap::keys()`. -/
def keys (m : QMap κ α) : List κ := m.map Prod.fst

/-- Construction from an initializer list: the pairs are inserted in order. -/
def ofList (l : List (κ × α)) : QMap κ α :=
  l.foldl (fun m kv => insert m kv.1 kv.2) []

end QMap

/-- `QPoint`. -/
structure QPoint where
  x : Int
  y : Int
  deriving DecidableEq, Repr

/-- `QSize`. -/
structure QSize where
  width : Int
  height : Int
  deriving DecidableEq, Repr

/-- `Screencasting::CursorMode`. -/
inductive CursorMode where
  | Hidden
  | Embedded
  | Metadata
  deriving DecidableEq, Repr

/-- The two enumerators of `ScreenCastPortal::SourceType` that the file uses. -/
inductive SourceType where
  | Monitor
  | Window
  deriving DecidableEq, Repr

/-- The `QVariant` values stored in a stream's attribute map.  `uint` holds
`static_cast<uint>(ScreenCastPortal::...)`; the numeric values of the enumerators
are declared in `screencast.h`, so the enumerator itself is kept. -/
inductive QVariant where
  | size (s : QSize)
  | uint (t : SourceType)
  | int (v : Int)
  deriving DecidableEq, Repr

/-- `QVariantMap`, the type of `Stream::map`. -/
abbrev QVariantMap := QMap String QVariant

/-! ## Objects of the protocol client -/

/-- A `KWayland::Client::Output` object is identified by its position in the order
in which `addOutput` created the objects. -/
abbrev OutputHandle := Nat

/-- A `ScreencastingStream` object is identified by the position of the
`createWindowStream` / `createOutputStream` call that returned it. -/
abbrev StreamHandle := Nat

/-- A `KWayland::Client::Output` created by `addOutput(name, version)`: the two
values captured by its `changed` handler and the two properties read by this file. -/
structure OutputObject where
  name : Nat
  version : Nat
  pixelSize : QSize
  globalPosition : QPoint
  deriving DecidableEq, Repr

/-- `WaylandOutput`, with the members this file sets.  `m_output` is the
`QSharedPointer<KWayland::Client::Output>`; `none` is the null pointer. -/
structure WaylandOutput where
  m_output : Option OutputHandle
  m_waylandOutputName : Nat
  m_waylandOutputVersion : Nat
  deriving DecidableEq, Repr

/-- A default-constructed `WaylandOutput` (what `QMap::value` and `QMap::take`
return for a missing key): its output pointer is null. -/
def WaylandOutput.dflt : WaylandOutput :=
  { m_output := none, m_waylandOutputName := 0, m_waylandOutputVersion := 0 }

/-- `WaylandIntegrationPrivate::Stream`, with the three members this file uses:
the stream object pointer, the node id and the attribute map. -/
structure Stream where
  stream : StreamHandle
  nodeId : Nat
  map : QVariantMap
  deriving DecidableEq, Repr

/-- A call made on `m_screencasting`. -/
inductive CaptureRequest where
  | createWindowStream (winid : String) (mode : CursorMode)
  | createOutputStream (output : Option OutputHandle) (mode : CursorMode)
  deriving DecidableEq, Repr

/-- `Qt::Orientation`. -/
inductive Orientation where
  | Horizontal
  | Vertical
  deriving DecidableEq, Repr

/-- A call made on `m_fakeInput`.  The `qreal` payloads are carried as rationals;
only whether a call is made is studied. -/
inductive FakeInputCall where
  | requestPointerButtonPress (linuxButton : Nat)
  | requestPointerButtonRelease (linuxButton : Nat)
  | requestPointerMove (dx dy : Rat)
  | requestPointerMoveAbsolute (x y : Rat)
  | requestPointerAxis (axis : Orientation) (delta : Rat)
  | requestKeyboardKeyPress (keycode : Int)
  | requestKeyboardKeyRelease (keycode : Int)
  deriving DecidableEq, Repr

/-! ## State -/

/-- The members of `WaylandIntegrationPrivate` that the modelled functions read or
write, the signal connections they make, and logs of the calls they make on the
collaborators. -/
structure State where
  /-- The output objects created by `addOutput`, each with a connected `changed`
  handler; `OutputHandle` indexes this list. -/
  outputObjects : List OutputObject
  m_outputMap : QMap Nat WaylandOutput
  m_streams : List Stream
  m_streamInput : Bool
  m_streamedScreenPosition : QPoint
  /-- Whether `m_fakeInput` is non-null. -/
  m_fakeInput : Bool
  /-- Log of the calls made on `m_screencasting`; call number `i` returned stream `i`. -/
  requests : List CaptureRequest
  /-- The `created` / `failed` connections made by `startStreaming`: the stream and
  the `output` argument its handlers captured. -/
  connected : List (StreamHandle × Option OutputHandle)
  /-- The `closed` connections made by the `created` handler: stream and node id. -/
  closedConnected : List (StreamHandle × Nat)
  /-- Log of the streams on which `Stream::close()` called `deleteLater()`. -/
  deleted : List StreamHandle
  /-- Log of the failure notifications sent (their text). -/
  notifications : List String
  /-- Log of the calls made on `m_fakeInput`. -/
  fakeInputCalls : List FakeInputCall
  deriving DecidableEq, Repr

/-- Modelled from the spec: the member declarations of `WaylandIntegrationPrivate`
(header `waylandintegration_p.h`) are missing, so the initial values of
`m_streamInput` (false: input streaming is enabled only while sessions exist) and of
`m_streamedScreenPosition` (a `QPoint` at the origin) are taken from the
specification.  The rest is the state the constructor builds: no output, no stream,
no connection, null capability pointers. -/
def State.init : State :=
  { outputObjects := [], m_outputMap := [], m_streams := [], m_streamInput := false,
    m_streamedScreenPosition := ⟨0, 0⟩, m_fakeInput := false, requests := [],
    connected := [], closedConnected := [], deleted := [], notifications := [],
    fakeInputCalls := [] }

/-! ## Queries -/

/-- `WaylandIntegrationPrivate::isStreamingEnabled`. -/
def isStreamingEnabled (s : State) : Bool := !s.m_streams.isEmpty

/-- `WaylandIntegrationPrivate::screens`. -/
def screens (s : State) : QMap Nat WaylandOutput := s.m_outputMap

/-- `WaylandIntegrationPrivate::streams`: the list of streams, each marshalled by
`operator<<` as the structure (node id, attribute map). -/
def streams (s : State) : List (Nat × QVariantMap) :=
  s.m_streams.map (fun st => (st.nodeId, st.map))

/-! ## Output registry -/

/-- `WaylandIntegrationPrivate::addOutput(name, version)`: creates and binds an
output object and connects its `changed` signal; the map is not touched.  A fresh
`KWayland::Client::Output` has an invalid pixel size and the origin as position. -/
def addOutput (s : State) (name version : Nat) : State :=
  { s with outputObjects := s.outputObjects ++
      [{ name := name, version := version, pixelSize := ⟨-1, -1⟩, globalPosition := ⟨0, 0⟩ }] }

/-- The `changed` signal of output object `output`, emitted after the protocol
client stored the new `pixelSize` and `globalPosition` in it.  The handler connected
by `addOutput` builds a `WaylandOutput` from the captured `name`, `version` and
`output` and inserts it under `name`.  An `output` that was never created emits
nothing. -/
def outputChanged (s : State) (output : OutputHandle) (pixelSize : QSize)
    (globalPosition : QPoint) : State :=
  match s.outputObjects[output]? with
  | none => s
  | some obj =>
    let portalOutput : WaylandOutput :=
      { m_output := some output, m_waylandOutputName := obj.name,
        m_waylandOutputVersion := obj.version }
    { s with
      outputObjects := s.outputObjects.set output
        { obj with pixelSize := pixelSize, globalPosition := globalPosition }
      m_outputMap := QMap.insert s.m_outputMap obj.name portalOutput }

/-- `WaylandIntegrationPrivate::removeOutput(name)`: takes the entry out of the map
(the value taken is only logged).  The output object and its `changed` connection
are left as they are. -/
def removeOutput (s : State) (name : Nat) : State :=
  { s with m_outputMap := (QMap.take s.m_outputMap name WaylandOutput.dflt).2 }

/-- The events of the output registry. -/
inductive OutputEvent where
  | announced (name version : Nat)
  | changed (output : OutputHandle) (pixelSize : QSize) (globalPosition : QPoint)
  | removed (name : Nat)
  deriving DecidableEq, Repr

/-- Dispatch of one output event to its handler. -/
def outputStep (s : State) : OutputEvent → State
  | .announced name version => addOutput s name version
  | .changed output pixelSize globalPosition => outputChanged s output pixelSize globalPosition
  | .removed name => removeOutput s name

/-- Dispatch of a sequence of output events, in order. -/
def outputRun (s : State) (evs : List OutputEvent) : State :=
  evs.foldl outputStep s

/-- The names of the `announced` events of `evs`, in order: entry `i` is the name
for which output object `i` was created. -/
def announcedNames (evs : List OutputEvent) : List Nat :=
  evs.filterMap (fun e => match e with
    | .announced name _ => some name
    | _ => none)

/-- The name for which output object `output` was bound by the `announced` events
of `evs` (objects are numbered in announcement order). -/
def boundName (evs : List OutputEvent) (output : OutputHandle) : Option Nat :=
  (announcedNames evs)[output]?

/-- The keys of a map are in strictly ascending order. -/
def QMap.Sorted {α : Type} (m : QMap Nat α) : Prop :=
  (QMap.keys m).Pairwise (fun a b => a < b)

/-- The names captured by the `changed` handlers of the output objects. -/
def objectNames (s : State) : List Nat :=
  s.outputObjects.map (fun obj => obj.name)

/-! ## Stopping streams -/

/-- `WaylandIntegrationPrivate::stopAllStreaming`: `close()` on every stream (that
is `deleteLater()` on its handle), then clear the list and the input flag. -/
def stopAllStreaming (s : State) : State :=
  { s with
    deleted := s.deleted ++ s.m_streams.map (fun st => st.stream)
    m_streams := []
    m_streamInput := false }

/-- The loop of `stopStreaming`: erase the first stream whose node id is `nodeid`
and stop scanning. -/
def eraseNode (nodeid : Nat) : List Stream → List Stream
  | [] => []
  | st :: rest => if st.nodeId = nodeid then rest else st :: eraseNode nodeid rest

/-- `WaylandIntegrationPrivate::stopStreaming(nodeid)`. -/
def stopStreaming (s : State) (nodeid : Nat) : State :=
  let s1 := { s with m_streams := eraseNode nodeid s.m_streams }
  if s1.m_streams.isEmpty then stopAllStreaming s1 else s1

/-- The `closed` signal of `stream`: every handler connected to it by a `created`
handler runs `stopStreaming(nodeid)` with its captured node id. -/
def streamClosed (s : State) (stream : StreamHandle) : State :=
  ((s.closedConnected.filter (fun c => c.1 = stream)).map (fun c => c.2)).foldl stopStreaming s

/-! ## Starting streams -/

/-- `WaylandIntegrationPrivate::startStreamingInput`. -/
def startStreamingInput (s : State) : State :=
  { s with m_streamInput := true }

/-- The terminal event that ends the nested event loop of `startStreaming`: the
stream's `created(nodeid)`, its `failed(error)`, or the 3000 ms timer. -/
inductive Negotiation where
  | created (nodeid : Nat)
  | failed (error : String)
  | timeout
  deriving DecidableEq, Repr

/-- The attribute map the `created` handler builds for a non-null `output`
(written after `m_streamedScreenPosition` was set to the output's position). -/
def monitorMap (pixelSize : QSize) (pos : QPoint) : QVariantMap :=
  QMap.ofList [("size", QVariant.size pixelSize),
    ("source_type", QVariant.uint SourceType.Monitor),
    ("screenpositionX", QVariant.int pos.x),
    ("screenpositionY", QVariant.int pos.y)]

/-- The attribute map the `created` handler builds for a null `output`. -/
def windowMap : QVariantMap :=
  QMap.ofList [("source_type", QVariant.uint SourceType.Window),
    ("screenpositionX", QVariant.int 0),
    ("screenpositionY", QVariant.int 0)]

/-- Body of the `created` handler connected by `startStreaming(stream, output)`;
what it does to the members (it also sets the local `streamReady` to true and quits
the local loop).  A non-null `output` always refers to a created object; the
fallback object is never used. -/
def onCreated (s : State) (stream : StreamHandle) (output : Option OutputHandle)
    (nodeid : Nat) : State :=
  let s1 : State × QVariantMap :=
    match output with
    | some o =>
      let obj := s.outputObjects.getD o ⟨0, 0, ⟨-1, -1⟩, ⟨0, 0⟩⟩
      let s0 := { s with m_streamedScreenPosition := obj.globalPosition }
      (s0, monitorMap obj.pixelSize s0.m_streamedScreenPosition)
    | none => (s, windowMap)
  let s2 := { s1.1 with
    m_streams := s1.1.m_streams ++ [{ stream := stream, nodeId := nodeid, map := s1.2 }] }
  let s3 := startStreamingInput s2
  { s3 with closedConnected := s3.closedConnected ++ [(stream, nodeid)] }

/-- Body of the `failed` handler connected by `startStreaming`: it sends the
notification (and sets the local `streamReady` to false and quits the local loop). -/
def onFailed (s : State) (error : String) : State :=
  { s with notifications := s.notifications ++ [error] }

/-- `WaylandIntegrationPrivate::startStreaming(stream, output)`, given the terminal
event `ev` that its nested loop dispatches.  It connects the two handlers, runs the
loop, and returns `streamReady`. -/
def startStreaming (s : State) (stream : StreamHandle) (output : Option OutputHandle)
    (ev : Negotiation) : State × Bool :=
  let streamReady := false
  let s1 := { s with connected := s.connected ++ [(stream, output)] }
  match ev with
  | .failed error => (onFailed s1 error, false)
  | .created nodeid => (onCreated s1 stream output nodeid, true)
  | .timeout => (s1, streamReady)

/-- `m_screencasting->createWindowStream(winid, mode)`, for a bound screencast
capability: the request is logged and a new stream handle is returned. -/
def createWindowStream (s : State) (winid : String) (mode : CursorMode) :
    State × StreamHandle :=
  ({ s with requests := s.requests ++ [CaptureRequest.createWindowStream winid mode] },
    s.requests.length)

/-- `m_screencasting->createOutputStream(output, mode)`, for a bound screencast
capability: the request is logged and a new stream handle is returned. -/
def createOutputStream (s : State) (output : Option OutputHandle) (mode : CursorMode) :
    State × StreamHandle :=
  ({ s with requests := s.requests ++ [CaptureRequest.createOutputStream output mode] },
    s.requests.length)

/-- `WaylandIntegrationPrivate::startStreamingWindow(winid)`. -/
def startStreamingWindow (s : State) (winid : String) (ev : Negotiation) : State × Bool :=
  let r := createWindowStream s winid CursorMode.Hidden
  startStreaming r.1 r.2 none ev

/-- `WaylandIntegrationPrivate::startStreamingOutput(outputName, mode)`. -/
def startStreamingOutput (s : State) (outputName : Nat) (mode : CursorMode)
    (ev : Negotiation) : State × Bool :=
  let output := (QMap.value s.m_outputMap outputName WaylandOutput.dflt).m_output
  let r := createOutputStream s output mode
  startStreaming r.1 r.2 output ev

/-- The `created(nodeid)` signal of `stream` emitted outside the nested loop of its
`startStreaming` call (after that call returned).  `startStreaming` never
disconnects its handlers, so the handler of every connection of `stream` runs.  The
handler captured `stream` and `output` by reference; they are read here with the
values they had during the call (after the return the references dangle in C++), so
the effect on the members is that of `onCreated` with the captured arguments. -/
def lateCreated (s : State) (stream : StreamHandle) (nodeid : Nat) : State :=
  (s.connected.filter (fun c => c.1 = stream)).foldl
    (fun acc c => onCreated acc c.1 c.2 nodeid) s

/-- The `failed(error)` signal of `stream` emitted after its `startStreaming` call
returned: the still-connected handler sends the notification. -/
def lateFailed (s : State) (stream : StreamHandle) (error : String) : State :=
  (s.connected.filter (fun c => c.1 = stream)).foldl (fun acc _ => onFailed acc error) s

/-! ## Input forwarding -/

/-- The guard `m_streamInput && m_fakeInput` followed by one call on `m_fakeInput`. -/
def forward (s : State) (call : FakeInputCall) : State :=
  if s.m_streamInput && s.m_fakeInput then
    { s with fakeInputCalls := s.fakeInputCalls ++ [call] }
  else s

/-- `WaylandIntegrationPrivate::requestPointerButtonPress`. -/
def requestPointerButtonPress (s : State) (linuxButton : Nat) : State :=
  forward s (.requestPointerButtonPress linuxButton)

/-- `WaylandIntegrationPrivate::requestPointerButtonRelease`. -/
def requestPointerButtonRelease (s : State) (linuxButton : Nat) : State :=
  forward s (.requestPointerButtonRelease linuxButton)

/-- `WaylandIntegrationPrivate::requestPointerMotion`. -/
def requestPointerMotion (s : State) (dx dy : Rat) : State :=
  forward s (.requestPointerMove dx dy)

/-- `WaylandIntegrationPrivate::requestPointerMotionAbsolute`: the position is
shifted by `m_streamedScreenPosition`. -/
def requestPointerMotionAbsolute (s : State) (x y : Rat) : State :=
  forward s (.requestPointerMoveAbsolute (x + s.m_streamedScreenPosition.x)
    (y + s.m_streamedScreenPosition.y))

/-- `WaylandIntegrationPrivate::requestPointerAxisDiscrete`. -/
def requestPointerAxisDiscrete (s : State) (axis : Orientation) (delta : Rat) : State :=
  forward s (.requestPointerAxis axis delta)

/-- `WaylandIntegrationPrivate::requestKeyboardKeycode`. -/
def requestKeyboardKeycode (s : State) (keycode : Int) (state : Bool) : State :=
  if state then forward s (.requestKeyboardKeyPress keycode)
  else forward s (.requestKeyboardKeyRelease keycode)

/-- The handler of `Registry::fakeInputAnnounced`: `m_fakeInput` becomes non-null. -/
def fakeInputAnnounced (s : State) : State :=
  { s with m_fakeInput := true }

/-! ## Runs -/

/-- An input request of the public interface. -/
inductive InputRequest where
  | pointerButtonPress (linuxButton : Nat)
  | pointerButtonRelease (linuxButton : Nat)
  | pointerMotion (dx dy : Rat)
  | pointerMotionAbsolute (x y : Rat)
  | pointerAxisDiscrete (axis : Orientation) (delta : Rat)
  | keyboardKeycode (keycode : Int) (state : Bool)
  deriving DecidableEq, Repr

/-- Dispatch of an input request to its member function. -/
def requestInput (s : State) : InputRequest → State
  | .pointerButtonPress b => requestPointerButtonPress s b
  | .pointerButtonRelease b => requestPointerButtonRelease s b
  | .pointerMotion dx dy => requestPointerMotion s dx dy
  | .pointerMotionAbsolute x y => requestPointerMotionAbsolute s x y
  | .pointerAxisDiscrete axis delta => requestPointerAxisDiscrete s axis delta
  | .keyboardKeycode keycode state => requestKeyboardKeycode s keycode state

/-- One step of the integration object: a call of the public interface (with the
terminal event of its negotiation, for the two capture calls) or a signal delivered
to one of the connected handlers. -/
inductive Op where
  | startStreamingInput
  | startStreamingOutput (outputName : Nat) (mode : CursorMode) (ev : Negotiation)
  | startStreamingWindow (winid : String) (ev : Negotiation)
  | stopStreaming (nodeid : Nat)
  | streamClosed (stream : StreamHandle)
  | stopAllStreaming
  | lateCreated (stream : StreamHandle) (nodeid : Nat)
  | lateFailed (stream : StreamHandle) (error : String)
  | output (e : OutputEvent)
  | fakeInputAnnounced
  | input (r : InputRequest)
  deriving DecidableEq, Repr

/-- The state after one step. -/
def step (s : State) : Op → State
  | .startStreamingInput => startStreamingInput s
  | .startStreamingOutput outputName mode ev => (startStreamingOutput s outputName mode ev).1
  | .startStreamingWindow winid ev => (startStreamingWindow s winid ev).1
  | .stopStreaming nodeid => stopStreaming s nodeid
  | .streamClosed stream => streamClosed s stream
  | .stopAllStreaming => stopAllStreaming s
  | .lateCreated stream nodeid => lateCreated s stream nodeid
  | .lateFailed stream error => lateFailed s stream error
  | .output e => outputStep s e
  | .fakeInputAnnounced => fakeInputAnnounced s
  | .input r => requestInput s r

/-- The state after a sequence of steps. -/
def run (s : State) (ops : List Op) : State :=
  ops.foldl step s

/-- The input flag is set whenever a stream is active. -/
def Gate (s : State) : Prop :=
  s.m_streams ≠ [] → s.m_streamInput = true

/-- The input flag is set exactly when a stream is active. -/
def Exact (s : State) : Prop :=
  s.m_streamInput = true ↔ s.m_streams ≠ []

/-! ## Lemmas: strings -/

theorem isPrefixOf_iff (p l : List Char) : p.isPrefixOf l = true ↔ p <+: l := by
  simp

theorem containsAux_iff (needle hay : List Char) :
    QString.containsAux needle hay = true ↔ needle <:+: hay := by
  induction hay with
  | nil =>
    simp [QString.containsAux]
  | cons c hay ih =>
    simp only [QString.containsAux, Bool.or_eq_true, ih, List.isPrefixOf_iff_prefix,
      List.infix_cons_iff]

theorem contains_iff (type needle : String) :
    QString.contains type needle = true ↔ needle.data <:+: type.data :=
  containsAux_iff _ _

theorem startsWith_iff (type pre : String) :
    QString.startsWith type pre = true ↔ pre.data <+: type.data := by
  simp [QString.startsWith]

theorem startsWithCI_iff (type pre : String) :
    QString.startsWithCI type pre = true ↔
      pre.data.map QString.foldCase <+: type.data.map QString.foldCase := by
  simp [QString.startsWithCI]

theorem laptop_iff (type : String) :
    embedded.any (fun pre => QString.startsWithCI type pre) = true ↔ IsLaptopName type := by
  simp only [embedded, IsLaptopName, List.any_eq_true, startsWithCI_iff]

theorem monitorPattern_iff (type : String) :
    monitorPattern type = true ↔ IsMonitorName type := by
  simp only [monitorPattern, IsMonitorName, Bool.or_eq_true, contains_iff, startsWith_iff,
    or_assoc]

theorem foldCase_toUpper (c : Char) : QString.foldCase c.toUpper = QString.foldCase c := by
  have key : ∀ n, n < 123 → 97 ≤ n →
      QString.foldCase (Char.ofNat (n - 32)) = QString.foldCase (Char.ofNat n) := by
    decide
  unfold Char.toUpper
  simp only
  split
  · rename_i h
    have := key c.toNat (by omega) h.1
    rwa [Char.ofNat_toNat] at this
  · rfl

theorem foldCase_toLower (c : Char) : QString.foldCase c.toLower = QString.foldCase c := by
  have key : ∀ n, n < 91 → 65 ≤ n →
      QString.foldCase (Char.ofNat (n + 32)) = QString.foldCase (Char.ofNat n) := by
    decide
  unfold Char.toLower
  simp only
  split
  · rename_i h
    have := key c.toNat (by omega) h.1
    rwa [Char.ofNat_toNat] at this
  · rfl

theorem startsWithCI_toUpper (type pre : String) :
    QString.startsWithCI (toUpper type) pre = QString.startsWithCI type pre := by
  simp only [QString.startsWithCI, toUpper, List.map_map]
  congr 2
  funext c
  exact foldCase_toUpper c

theorem startsWithCI_toLower (type pre : String) :
    QString.startsWithCI (toLower type) pre = QString.startsWithCI type pre := by
  simp only [QString.startsWithCI, toLower, List.map_map]
  congr 2
  funext c
  exact foldCase_toLower c

theorem setOutputType_laptop_iff (m : OutputType) (type : String) :
    setOutputType m type = OutputType.Laptop ↔
      embedded.any (fun pre => QString.startsWithCI type pre) = true := by
  unfold setOutputType
  split
  · simp [*]
  · split
    · simp [*]
    · split <;> simp [*]

/-! ## Lemmas: stopping -/

theorem eraseNode_of_not_mem (nodeid : Nat) (l : List Stream)
    (h : nodeid ∉ l.map (fun st => st.nodeId)) : eraseNode nodeid l = l := by
  induction l with
  | nil => rfl
  | cons st rest ih =>
    simp only [List.map_cons, List.mem_cons, not_or] at h
    have hne : ¬ st.nodeId = nodeid := fun e => h.1 e.symm
    simp [eraseNode, hne, ih h.2]

theorem not_mem_eraseNode (nodeid : Nat) (l : List Stream)
    (h : (l.map (fun st => st.nodeId)).count nodeid ≤ 1) :
    nodeid ∉ (eraseNode nodeid l).map (fun st => st.nodeId) := by
  induction l with
  | nil => simp [eraseNode]
  | cons st rest ih =>
    by_cases e : st.nodeId = nodeid
    · simp only [eraseNode, e, if_true]
      simp only [List.map_cons, e, List.count_cons_self] at h
      have h0 : (rest.map (fun st => st.nodeId)).count nodeid = 0 := by omega
      exact List.count_eq_zero.mp h0
    · simp only [eraseNode, e, if_false, List.map_cons, List.mem_cons, not_or]
      refine ⟨fun e' => e e'.symm, ih ?_⟩
      simpa [List.count_cons, e] using h

/-! ## Lemmas: the output map -/

theorem QMap.mem_keys_insert {α : Type} (m : QMap Nat α) (k k' : Nat) (v : α) :
    k' ∈ QMap.keys (QMap.insert m k v) ↔ k' = k ∨ k' ∈ QMap.keys m := by
  induction m with
  | nil => simp [QMap.insert, QMap.keys]
  | cons kv rest ih =>
    obtain ⟨k0, v0⟩ := kv
    unfold QMap.insert
    split
    · simp [QMap.keys]
    · split
      · rename_i _ he
        subst he
        simp [QMap.keys]
      · have ih' : k' ∈ List.map Prod.fst (QMap.insert rest k v) ↔
            k' = k ∨ k' ∈ List.map Prod.fst rest := ih
        simp only [QMap.keys, List.map_cons, List.mem_cons, ih']
        tauto

theorem QMap.sorted_insert {α : Type} (m : QMap Nat α) (k : Nat) (v : α)
    (h : QMap.Sorted m) : QMap.Sorted (QMap.insert m k v) := by
  induction m with
  | nil => simp [QMap.insert, QMap.Sorted, QMap.keys]
  | cons kv rest ih =>
    obtain ⟨k0, v0⟩ := kv
    have h' : (k0 :: QMap.keys rest).Pairwise (fun a b => a < b) := h
    rw [List.pairwise_cons] at h'
    unfold QMap.insert
    split
    · rename_i hlt
      have hlt' : k < k0 := by simpa [QMapKey.lessThan] using hlt
      show (k :: k0 :: QMap.keys rest).Pairwise (fun a b => a < b)
      rw [List.pairwise_cons]
      refine ⟨?_, h⟩
      intro a ha
      rcases List.mem_cons.mp ha with rfl | ha
      · exact hlt'
      · exact Nat.lt_trans hlt' (h'.1 a ha)
    · split
      · rename_i _ he
        subst he
        show (k :: QMap.keys rest).Pairwise (fun a b => a < b)
        exact h
      · rename_i hnlt hne
        have hnlt' : ¬ k < k0 := by simpa [QMapKey.lessThan] using hnlt
        show (k0 :: QMap.keys (QMap.insert rest k v)).Pairwise (fun a b => a < b)
        rw [List.pairwise_cons]
        refine ⟨?_, ih h'.2⟩
        intro a ha
        rcases (QMap.mem_keys_insert rest k a v).mp ha with rfl | ha
        · omega
        · exact h'.1 a ha

theorem QMap.mem_keys_remove {α : Type} (m : QMap Nat α) (k k' : Nat)
    (h : QMap.Sorted m) :
    k' ∈ QMap.keys (QMap.remove m k) ↔ k' ≠ k ∧ k' ∈ QMap.keys m := by
  induction m with
  | nil => simp [QMap.remove, QMap.keys]
  | cons kv rest ih =>
    obtain ⟨k0, v0⟩ := kv
    have h' : (k0 :: QMap.keys rest).Pairwise (fun a b => a < b) := h
    rw [List.pairwise_cons] at h'
    unfold QMap.remove
    split
    · rename_i he
      subst he
      show k' ∈ QMap.keys rest ↔ k' ≠ k ∧ k' ∈ k :: QMap.keys rest
      constructor
      · intro hm
        have := h'.1 k' hm
        exact ⟨by omega, List.mem_cons_of_mem _ hm⟩
      · rintro ⟨hne, hm⟩
        rcases List.mem_cons.mp hm with e | hm
        · exact absurd e hne
        · exact hm
    · rename_i hne
      show k' ∈ k0 :: QMap.keys (QMap.remove rest k) ↔ k' ≠ k ∧ k' ∈ k0 :: QMap.keys rest
      rw [List.mem_cons, List.mem_cons, ih h'.2]
      constructor
      · rintro (e | ⟨h1, h2⟩)
        · subst e
          exact ⟨fun e => hne e.symm, Or.inl rfl⟩
        · exact ⟨h1, Or.inr h2⟩
      · rintro ⟨h1, e | h2⟩
        · exact Or.inl e
        · exact Or.inr ⟨h1, h2⟩

theorem QMap.sorted_remove {α : Type} (m : QMap Nat α) (k : Nat)
    (h : QMap.Sorted m) : QMap.Sorted (QMap.remove m k) := by
  induction m with
  | nil => simpa [QMap.remove] using h
  | cons kv rest ih =>
    obtain ⟨k0, v0⟩ := kv
    have h' : (k0 :: QMap.keys rest).Pairwise (fun a b => a < b) := h
    rw [List.pairwise_cons] at h'
    unfold QMap.remove
    split
    · exact h'.2
    · show (k0 :: QMap.keys (QMap.remove rest k)).Pairwise (fun a b => a < b)
      rw [List.pairwise_cons]
      refine ⟨?_, ih h'.2⟩
      intro a ha
      exact h'.1 a ((QMap.mem_keys_remove rest k a h'.2).mp ha).2

theorem outputChanged_of_none (s : State) (o : OutputHandle) (sz : QSize) (pos : QPoint)
    (h : s.outputObjects[o]? = none) : outputChanged s o sz pos = s := by
  simp [outputChanged, h]

theorem outputChanged_map (s : State) (o : OutputHandle) (sz : QSize) (pos : QPoint)
    (obj : OutputObject) (h : s.outputObjects[o]? = some obj) :
    (outputChanged s o sz pos).m_outputMap =
      QMap.insert s.m_outputMap obj.name ⟨some o, obj.name, obj.version⟩ := by
  simp [outputChanged, h]

theorem outputChanged_names (s : State) (o : OutputHandle) (sz : QSize) (pos : QPoint) :
    objectNames (outputChanged s o sz pos) = objectNames s := by
  unfold outputChanged
  split
  · rfl
  · rename_i obj h
    simp only [objectNames, List.map_set]
    apply List.ext_getElem?
    intro i
    rw [List.getElem?_set]
    split
    · rename_i hi
      subst hi
      split
      · simp [h]
      · rename_i hlen
        simp only [List.length_map] at hlen
        have := List.getElem?_eq_none (Nat.le_of_not_lt hlen)
        simp [this] at h
    · rfl

theorem sorted_outputStep (s : State) (e : OutputEvent) (h : QMap.Sorted s.m_outputMap) :
    QMap.Sorted (outputStep s e).m_outputMap := by
  cases e with
  | announced a v => exact h
  | changed o sz pos =>
    show QMap.Sorted (outputChanged s o sz pos).m_outputMap
    cases hobj : s.outputObjects[o]? with
    | none => rw [outputChanged_of_none s o sz pos hobj]; exact h
    | some obj =>
      rw [outputChanged_map s o sz pos obj hobj]
      exact QMap.sorted_insert _ _ _ h
  | removed a => exact QMap.sorted_remove _ _ h

theorem mem_keys_outputRun (evs : List OutputEvent) :
    ∀ (s : State), QMap.Sorted s.m_outputMap → ∀ (n : Nat),
      (n ∈ QMap.keys (outputRun s evs).m_outputMap ↔
        (n ∈ QMap.keys s.m_outputMap ∧ OutputEvent.removed n ∉ evs) ∨
        ∃ pre o sz pos post, evs = pre ++ OutputEvent.changed o sz pos :: post ∧
          (objectNames s ++ announcedNames pre)[o]? = some n ∧
          OutputEvent.removed n ∉ post) := by
  induction evs with
  | nil =>
    intro s _ n
    simp [outputRun]
  | cons e evs ih =>
    intro s hs n
    have hrun : outputRun s (e :: evs) = outputRun (outputStep s e) evs := rfl
    rw [hrun, ih (outputStep s e) (sorted_outputStep s e hs) n]
    cases e with
    | announced a v =>
      have hmap : (outputStep s (OutputEvent.announced a v)).m_outputMap = s.m_outputMap := rfl
      have hnames : objectNames (outputStep s (OutputEvent.announced a v)) =
          objectNames s ++ [a] := by
        simp [outputStep, addOutput, objectNames]
      rw [hmap, hnames]
      constructor
      · rintro (⟨hk, hr⟩ | ⟨pre, o, sz, pos, post, heq, hb, hr⟩)
        · exact Or.inl ⟨hk, by simpa using hr⟩
        · refine Or.inr ⟨OutputEvent.announced a v :: pre, o, sz, pos, post, by rw [heq]; rfl, ?_, hr⟩
          simpa [announcedNames] using hb
      · rintro (⟨hk, hr⟩ | ⟨pre, o, sz, pos, post, heq, hb, hr⟩)
        · exact Or.inl ⟨hk, by simpa using hr⟩
        · cases pre with
          | nil => simp at heq
          | cons p pre' =>
            simp only [List.cons_append, List.cons.injEq] at heq
            obtain ⟨hp, heq⟩ := heq
            subst hp
            refine Or.inr ⟨pre', o, sz, pos, post, heq, ?_, hr⟩
            simpa [announcedNames] using hb
    | changed o' sz' pos' =>
      have hnames : objectNames (outputStep s (OutputEvent.changed o' sz' pos')) =
          objectNames s := outputChanged_names s o' sz' pos'
      rw [hnames]
      have hpre : ∀ pre' : List OutputEvent,
          announcedNames (OutputEvent.changed o' sz' pos' :: pre') = announcedNames pre' := by
        intro pre'
        simp [announcedNames]
      cases hobj : s.outputObjects[o']? with
      | none =>
        have hst : outputStep s (OutputEvent.changed o' sz' pos') = s :=
          outputChanged_of_none s o' sz' pos' hobj
        rw [hst]
        have hno : (objectNames s)[o']? = none := by
          simp [objectNames, hobj]
        constructor
        · rintro (⟨hk, hr⟩ | ⟨pre, o, sz, pos, post, heq, hb, hr⟩)
          · exact Or.inl ⟨hk, by simpa using hr⟩
          · refine Or.inr ⟨OutputEvent.changed o' sz' pos' :: pre, o, sz, pos, post,
              by rw [heq]; rfl, ?_, hr⟩
            rw [hpre]; exact hb
        · rintro (⟨hk, hr⟩ | ⟨pre, o, sz, pos, post, heq, hb, hr⟩)
          · exact Or.inl ⟨hk, by simpa using hr⟩
          · cases pre with
            | nil =>
              simp only [List.nil_append, List.cons.injEq, OutputEvent.changed.injEq] at heq
              obtain ⟨⟨ho, _, _⟩, _⟩ := heq
              subst ho
              simp [announcedNames, hno] at hb
            | cons p pre' =>
              simp only [List.cons_append, List.cons.injEq] at heq
              obtain ⟨hp, heq⟩ := heq
              subst hp
              refine Or.inr ⟨pre', o, sz, pos, post, heq, ?_, hr⟩
              rw [hpre] at hb; exact hb
      | some obj =>
        have hmap := outputChanged_map s o' sz' pos' obj hobj
        have hmap' : (outputStep s (OutputEvent.changed o' sz' pos')).m_outputMap =
            QMap.insert s.m_outputMap obj.name ⟨some o', obj.name, obj.version⟩ := hmap
        rw [hmap', QMap.mem_keys_insert]
        have hnm : (objectNames s)[o']? = some obj.name := by
          simp [objectNames, hobj]
        constructor
        · rintro (⟨hk | hk, hr⟩ | ⟨pre, o, sz, pos, post, heq, hb, hr⟩)
          · refine Or.inr ⟨[], o', sz', pos', evs, rfl, ?_, hr⟩
            simp [announcedNames, hnm, hk]
          · exact Or.inl ⟨hk, by simpa using hr⟩
          · refine Or.inr ⟨OutputEvent.changed o' sz' pos' :: pre, o, sz, pos, post,
              by rw [heq]; rfl, ?_, hr⟩
            rw [hpre]; exact hb
        · rintro (⟨hk, hr⟩ | ⟨pre, o, sz, pos, post, heq, hb, hr⟩)
          · exact Or.inl ⟨Or.inr hk, by simpa using hr⟩
          · cases pre with
            | nil =>
              simp only [List.nil_append, List.cons.injEq, OutputEvent.changed.injEq] at heq
              obtain ⟨⟨ho, _, _⟩, hpost⟩ := heq
              subst ho
              subst hpost
              simp only [announcedNames, List.filterMap_nil, List.append_nil, hnm,
                Option.some.injEq] at hb
              exact Or.inl ⟨Or.inl hb.symm, hr⟩
            | cons p pre' =>
              simp only [List.cons_append, List.cons.injEq] at heq
              obtain ⟨hp, heq⟩ := heq
              subst hp
              refine Or.inr ⟨pre', o, sz, pos, post, heq, ?_, hr⟩
              rw [hpre] at hb; exact hb
    | removed a =>
      have hmap : (outputStep s (OutputEvent.removed a)).m_outputMap =
          QMap.remove s.m_outputMap a := rfl
      have hnames : objectNames (outputStep s (OutputEvent.removed a)) = objectNames s := rfl
      rw [hmap, hnames, QMap.mem_keys_remove _ _ _ hs]
      have hpre : ∀ pre' : List OutputEvent,
          announcedNames (OutputEvent.removed a :: pre') = announcedNames pre' := by
        intro pre'
        simp [announcedNames]
      constructor
      · rintro (⟨⟨hne, hk⟩, hr⟩ | ⟨pre, o, sz, pos, post, heq, hb, hr⟩)
        · refine Or.inl ⟨hk, ?_⟩
          simp only [List.mem_cons, OutputEvent.removed.injEq, not_or]
          exact ⟨hne, hr⟩
        · refine Or.inr ⟨OutputEvent.removed a :: pre, o, sz, pos, post,
            by rw [heq]; rfl, ?_, hr⟩
          rw [hpre]; exact hb
      · rintro (⟨hk, hr⟩ | ⟨pre, o, sz, pos, post, heq, hb, hr⟩)
        · simp only [List.mem_cons, OutputEvent.removed.injEq, not_or] at hr
          exact Or.inl ⟨⟨hr.1, hk⟩, hr.2⟩
        · cases pre with
          | nil => simp at heq
          | cons p pre' =>
            simp only [List.cons_append, List.cons.injEq] at heq
            obtain ⟨hp, heq⟩ := heq
            subst hp
            refine Or.inr ⟨pre', o, sz, pos, post, heq, ?_, hr⟩
            rw [hpre] at hb; exact hb

/-! ## Lemmas: the input flag and the stream list -/

theorem onCreated_streams (s : State) (stream : StreamHandle) (output : Option OutputHandle)
    (nodeid : Nat) : (onCreated s stream output nodeid).m_streams ≠ [] := by
  cases output <;> simp [onCreated, startStreamingInput]

theorem onCreated_streamInput (s : State) (stream : StreamHandle)
    (output : Option OutputHandle) (nodeid : Nat) :
    (onCreated s stream output nodeid).m_streamInput = true := by
  cases output <;> simp [onCreated, startStreamingInput]

theorem onCreated_exact (s : State) (stream : StreamHandle) (output : Option OutputHandle)
    (nodeid : Nat) : Exact (onCreated s stream output nodeid) :=
  ⟨fun _ => onCreated_streams s stream output nodeid,
    fun _ => onCreated_streamInput s stream output nodeid⟩

theorem exact_gate (s : State) (h : Exact s) : Gate s := h.mpr

theorem exact_of_fields (s t : State) (h1 : t.m_streams = s.m_streams)
    (h2 : t.m_streamInput = s.m_streamInput) (h : Exact s) : Exact t := by
  unfold Exact at *
  rw [h1, h2]
  exact h

theorem gate_of_fields (s t : State) (h1 : t.m_streams = s.m_streams)
    (h2 : t.m_streamInput = s.m_streamInput) (h : Gate s) : Gate t := by
  unfold Gate at *
  rw [h1, h2]
  exact h

theorem startStreaming_exact (s : State) (stream : StreamHandle)
    (output : Option OutputHandle) (ev : Negotiation) (h : Exact s) :
    Exact (startStreaming s stream output ev).1 := by
  cases ev with
  | created n => exact onCreated_exact _ _ _ _
  | failed e => exact exact_of_fields s _ rfl rfl h
  | timeout => exact exact_of_fields s _ rfl rfl h

theorem startStreaming_gate (s : State) (stream : StreamHandle)
    (output : Option OutputHandle) (ev : Negotiation) (h : Gate s) :
    Gate (startStreaming s stream output ev).1 := by
  cases ev with
  | created n => exact exact_gate _ (onCreated_exact _ _ _ _)
  | failed e => exact gate_of_fields s _ rfl rfl h
  | timeout => exact gate_of_fields s _ rfl rfl h

theorem eraseNode_ne_nil (nodeid : Nat) (l : List Stream) (h : eraseNode nodeid l ≠ []) :
    l ≠ [] := by
  intro e
  subst e
  exact h rfl

theorem stopStreaming_exact (s : State) (nodeid : Nat) (h : Exact s) :
    Exact (stopStreaming s nodeid) := by
  unfold stopStreaming
  simp only
  split
  · simp [Exact, stopAllStreaming]
  · rename_i hne
    have hne' : eraseNode nodeid s.m_streams ≠ [] := by simpa using hne
    unfold Exact
    simp only [ne_eq, hne', not_false_eq_true, iff_true]
    exact h.mpr (eraseNode_ne_nil _ _ hne')

theorem stopStreaming_gate (s : State) (nodeid : Nat) (h : Gate s) :
    Gate (stopStreaming s nodeid) := by
  unfold stopStreaming
  simp only
  split
  · simp [Gate, stopAllStreaming]
  · rename_i hne
    have hne' : eraseNode nodeid s.m_streams ≠ [] := by simpa using hne
    intro _
    exact h (eraseNode_ne_nil _ _ hne')

theorem foldl_preserves {β : Type} (P : State → Prop) (f : State → β → State)
    (hf : ∀ s b, P s → P (f s b)) (l : List β) : ∀ s, P s → P (l.foldl f s) := by
  induction l with
  | nil => intro s h; exact h
  | cons b l ih => intro s h; exact ih _ (hf s b h)

theorem forward_fields (s : State) (call : FakeInputCall) :
    (forward s call).m_streams = s.m_streams ∧
    (forward s call).m_streamInput = s.m_streamInput := by
  unfold forward
  split <;> exact ⟨rfl, rfl⟩

theorem requestInput_fields (s : State) (r : InputRequest) :
    (requestInput s r).m_streams = s.m_streams ∧
    (requestInput s r).m_streamInput = s.m_streamInput := by
  cases r with
  | pointerButtonPress b => exact forward_fields _ _
  | pointerButtonRelease b => exact forward_fields _ _
  | pointerMotion dx dy => exact forward_fields _ _
  | pointerMotionAbsolute x y => exact forward_fields _ _
  | pointerAxisDiscrete axis delta => exact forward_fields _ _
  | keyboardKeycode keycode state =>
    cases state
    · exact forward_fields _ _
    · exact forward_fields _ _

theorem outputStep_fields (s : State) (e : OutputEvent) :
    (outputStep s e).m_streams = s.m_streams ∧
    (outputStep s e).m_streamInput = s.m_streamInput := by
  cases e with
  | announced a v => exact ⟨rfl, rfl⟩
  | changed o sz pos =>
    show (outputChanged s o sz pos).m_streams = _ ∧ (outputChanged s o sz pos).m_streamInput = _
    unfold outputChanged
    split <;> exact ⟨rfl, rfl⟩
  | removed a => exact ⟨rfl, rfl⟩

theorem step_gate (s : State) (op : Op) (h : Gate s) : Gate (step s op) := by
  cases op with
  | startStreamingInput => intro _; rfl
  | startStreamingOutput outputName mode ev =>
    exact startStreaming_gate _ _ _ _ (gate_of_fields s _ rfl rfl h)
  | startStreamingWindow winid ev =>
    exact startStreaming_gate _ _ _ _ (gate_of_fields s _ rfl rfl h)
  | stopStreaming nodeid => exact stopStreaming_gate s nodeid h
  | streamClosed stream => exact foldl_preserves Gate _ stopStreaming_gate _ s h
  | stopAllStreaming => simp [step, Gate, stopAllStreaming]
  | lateCreated stream nodeid =>
    exact foldl_preserves Gate _
      (fun acc c _ => exact_gate _ (onCreated_exact acc c.1 c.2 nodeid)) _ s h
  | lateFailed stream error =>
    exact foldl_preserves Gate (fun acc (_ : StreamHandle × Option OutputHandle) =>
      onFailed acc error) (fun acc _ ha => gate_of_fields acc _ rfl rfl ha) _ s h
  | output e => exact gate_of_fields s _ (outputStep_fields s e).1 (outputStep_fields s e).2 h
  | fakeInputAnnounced => exact gate_of_fields s _ rfl rfl h
  | input r => exact gate_of_fields s _ (requestInput_fields s r).1 (requestInput_fields s r).2 h

theorem step_exact (s : State) (op : Op) (hop : op ≠ Op.startStreamingInput) (h : Exact s) :
    Exact (step s op) := by
  cases op with
  | startStreamingInput => exact absurd rfl hop
  | startStreamingOutput outputName mode ev =>
    exact startStreaming_exact _ _ _ _ (exact_of_fields s _ rfl rfl h)
  | startStreamingWindow winid ev =>
    exact startStreaming_exact _ _ _ _ (exact_of_fields s _ rfl rfl h)
  | stopStreaming nodeid => exact stopStreaming_exact s nodeid h
  | streamClosed stream => exact foldl_preserves Exact _ stopStreaming_exact _ s h
  | stopAllStreaming => simp [step, Exact, stopAllStreaming]
  | lateCreated stream nodeid =>
    exact foldl_preserves Exact _
      (fun acc c _ => onCreated_exact acc c.1 c.2 nodeid) _ s h
  | lateFailed stream error =>
    exact foldl_preserves Exact (fun acc (_ : StreamHandle × Option OutputHandle) =>
      onFailed acc error) (fun acc _ ha => exact_of_fields acc _ rfl rfl ha) _ s h
  | output e => exact exact_of_fields s _ (outputStep_fields s e).1 (outputStep_fields s e).2 h
  | fakeInputAnnounced => exact exact_of_fields s _ rfl rfl h
  | input r =>
    exact exact_of_fields s _ (requestInput_fields s r).1 (requestInput_fields s r).2 h

theorem run_gate (ops : List Op) : ∀ s, Gate s → Gate (run s ops) := by
  induction ops with
  | nil => intro s h; exact h
  | cons op ops ih => intro s h; exact ih _ (step_gate s op h)

theorem run_exact (ops : List Op) (hops : Op.startStreamingInput ∉ ops) :
    ∀ s, Exact s → Exact (run s ops) := by
  induction ops with
  | nil => intro s h; exact h
  | cons op ops ih =>
    intro s h
    simp only [List.mem_cons, not_or] at hops
    exact ih hops.2 _ (step_exact s op (fun e => hops.1 e.symm) h)

theorem requestInput_of_flag_false (s : State) (r : InputRequest)
    (h : s.m_streamInput = false) : requestInput s r = s := by
  cases r with
  | pointerButtonPress b => simp [requestInput, requestPointerButtonPress, forward, h]
  | pointerButtonRelease b => simp [requestInput, requestPointerButtonRelease, forward, h]
  | pointerMotion dx dy => simp [requestInput, requestPointerMotion, forward, h]
  | pointerMotionAbsolute x y => simp [requestInput, requestPointerMotionAbsolute, forward, h]
  | pointerAxisDiscrete axis delta =>
    simp [requestInput, requestPointerAxisDiscrete, forward, h]
  | keyboardKeycode keycode state =>
    cases state <;> simp [requestInput, requestKeyboardKeycode, forward, h]

/-! ## The claims -/

/-- C9: `setOutputType` classifies `eDP-1` as Laptop, `HDMI-A-1` and `DP-2` as
Monitor, `TV-1` as Television and `foo-1` as Monitor.  Its result does not depend
on the previous value of the member; a string with a laptop-panel prefix is Laptop
whatever else it matches, otherwise a string with a monitor pattern is Monitor
whatever else it matches, otherwise a string containing TV is Television, and a
string matching nothing is Monitor. -/
theorem setOutputType_classification (m : OutputType) (type : String) :
    setOutputType m "eDP-1" = OutputType.Laptop ∧
    setOutputType m "HDMI-A-1" = OutputType.Monitor ∧
    setOutputType m "DP-2" = OutputType.Monitor ∧
    setOutputType m "TV-1" = OutputType.Television ∧
    setOutputType m "foo-1" = OutputType.Monitor ∧
    (∀ m', setOutputType m' type = setOutputType m type) ∧
    (IsLaptopName type → setOutputType m type = OutputType.Laptop) ∧
    (¬ IsLaptopName type → IsMonitorName type → setOutputType m type = OutputType.Monitor) ∧
    (¬ IsLaptopName type → ¬ IsMonitorName type → IsTelevisionName type →
      setOutputType m type = OutputType.Television) ∧
    (¬ IsLaptopName type → ¬ IsMonitorName type → ¬ IsTelevisionName type →
      setOutputType m type = OutputType.Monitor) := by
  refine ⟨by cases m <;> decide, by cases m <;> decide, by cases m <;> decide,
    by cases m <;> decide, by cases m <;> decide, fun _ => rfl, ?_, ?_, ?_, ?_⟩
  · intro h
    exact (setOutputType_laptop_iff m type).mpr ((laptop_iff type).mpr h)
  · intro hl hm
    have hl' : ¬ embedded.any (fun pre => QString.startsWithCI type pre) = true :=
      fun h => hl ((laptop_iff type).mp h)
    have hm' := (monitorPattern_iff type).mpr hm
    simp [setOutputType, hl', hm']
  · intro hl hm ht
    have hl' : ¬ embedded.any (fun pre => QString.startsWithCI type pre) = true :=
      fun h => hl ((laptop_iff type).mp h)
    have hm' : ¬ monitorPattern type = true := fun h => hm ((monitorPattern_iff type).mp h)
    have ht' : QString.contains type "TV" = true := (contains_iff type "TV").mpr ht
    simp [setOutputType, hl', hm', ht']
  · intro hl hm ht
    have hl' : ¬ embedded.any (fun pre => QString.startsWithCI type pre) = true :=
      fun h => hl ((laptop_iff type).mp h)
    have hm' : ¬ monitorPattern type = true := fun h => hm ((monitorPattern_iff type).mp h)
    have ht' : ¬ QString.contains type "TV" = true := fun h => ht ((contains_iff type "TV").mp h)
    simp [setOutputType, hl', hm', ht']

/-- C9, at concrete strings: `LCD-HDMI-TV` has a laptop prefix, a monitor pattern and
the TV substring and is Laptop; `DVI-TV` has no laptop prefix, a monitor pattern and
the TV substring and is Monitor. -/
theorem setOutputType_classification_witness :
    (IsLaptopName "LCD-HDMI-TV" ∧ IsMonitorName "LCD-HDMI-TV" ∧ IsTelevisionName "LCD-HDMI-TV" ∧
      setOutputType OutputType.Television "LCD-HDMI-TV" = OutputType.Laptop) ∧
    (¬ IsLaptopName "DVI-TV" ∧ IsMonitorName "DVI-TV" ∧ IsTelevisionName "DVI-TV" ∧
      setOutputType OutputType.Television "DVI-TV" = OutputType.Monitor) :=
  have l1 : IsLaptopName "LCD-HDMI-TV" := (laptop_iff _).mp (by decide)
  have m1 : IsMonitorName "LCD-HDMI-TV" := (monitorPattern_iff _).mp (by decide)
  have t1 : IsTelevisionName "LCD-HDMI-TV" := (contains_iff _ "TV").mp (by decide)
  have l2 : ¬ IsLaptopName "DVI-TV" := fun h => absurd ((laptop_iff _).mpr h) (by decide)
  have m2 : IsMonitorName "DVI-TV" := (monitorPattern_iff _).mp (by decide)
  have t2 : IsTelevisionName "DVI-TV" := (contains_iff _ "TV").mp (by decide)
  ⟨⟨l1, m1, t1,
      (setOutputType_classification OutputType.Television "LCD-HDMI-TV").2.2.2.2.2.2.1 l1⟩,
    ⟨l2, m2, t2,
      (setOutputType_classification OutputType.Television "DVI-TV").2.2.2.2.2.2.2.1 l2 m2⟩⟩

/-- C10 as stated fails: `tv-1` is classified Monitor, while its upper-case form
`TV-1` is classified Television. -/
theorem setOutputType_tv_case_sensitive :
    toUpper "tv-1" = "TV-1" ∧
    setOutputType OutputType.Monitor "tv-1" = OutputType.Monitor ∧
    setOutputType OutputType.Monitor (toUpper "tv-1") = OutputType.Television ∧
    setOutputType OutputType.Monitor "tv-1" ≠ setOutputType OutputType.Monitor (toUpper "tv-1") := by
  decide

/-- C10, amended: only the laptop-panel prefixes are matched without regard to
case.  For every connector string, `setOutputType` yields Laptop for the string if
and only if it does for its upper-case form, and if and only if it does for its
lower-case form (so `edp-1` is Laptop like `eDP-1`). -/
theorem setOutputType_laptop_case_insensitive (m : OutputType) (type : String) :
    (setOutputType m (toUpper type) = OutputType.Laptop ↔
      setOutputType m type = OutputType.Laptop) ∧
    (setOutputType m (toLower type) = OutputType.Laptop ↔
      setOutputType m type = OutputType.Laptop) ∧
    setOutputType m "edp-1" = setOutputType m "eDP-1" := by
  refine ⟨?_, ?_, by cases m <;> decide⟩
  · simp only [setOutputType_laptop_iff, startsWithCI_toUpper]
  · simp only [setOutputType_laptop_iff, startsWithCI_toLower]

/-- C7: from every state `stopAllStreaming` calls `close()` once on the handle of
every active stream, in list order, and on nothing else; afterwards `streams()` is
empty, `isStreamingEnabled()` is false and the input flag is false.  A second call
closes no handle and returns the state the first call produced. -/
theorem stopAllStreaming_twice (s : State) :
    (stopAllStreaming s).deleted = s.deleted ++ s.m_streams.map (fun st => st.stream) ∧
    streams (stopAllStreaming s) = [] ∧
    isStreamingEnabled (stopAllStreaming s) = false ∧
    (stopAllStreaming s).m_streamInput = false ∧
    (stopAllStreaming (stopAllStreaming s)).deleted = (stopAllStreaming s).deleted ∧
    stopAllStreaming (stopAllStreaming s) = stopAllStreaming s := by
  simp [stopAllStreaming, streams, isStreamingEnabled]

/-- C6, where the code departs from it: with the single active stream (node id 42,
handle 0) `stopStreaming(42)` empties the list and clears the input flag but calls
`close()` on no handle, while `stopAllStreaming` from the same state closes handle 0.
In general `stopStreaming` never closes a handle. -/
theorem stopStreaming_closes_nothing :
    (startStreamingWindow State.init "win-7" (Negotiation.created 42)).1.m_streams =
      [{ stream := 0, nodeId := 42, map := windowMap }] ∧
    (stopStreaming (startStreamingWindow State.init "win-7" (Negotiation.created 42)).1 42).m_streams
      = [] ∧
    (stopStreaming (startStreamingWindow State.init "win-7" (Negotiation.created 42)).1 42).m_streamInput
      = false ∧
    (stopStreaming (startStreamingWindow State.init "win-7" (Negotiation.created 42)).1 42).deleted
      = [] ∧
    (stopAllStreaming (startStreamingWindow State.init "win-7" (Negotiation.created 42)).1).deleted
      = [0] ∧
    (∀ (s : State) (nodeid : Nat), (stopStreaming s nodeid).deleted = s.deleted) := by
  refine ⟨by decide, by decide, by decide, by decide, by decide, ?_⟩
  intro s nodeid
  unfold stopStreaming
  simp only
  split
  · rename_i h
    have h' : eraseNode nodeid s.m_streams = [] := by simpa using h
    simp [stopAllStreaming, h']
  · rfl

/-- C8 as stated fails: after `created(5)` arrived for two streams, the first
`stopStreaming(5)` leaves one stream with node id 5 and the second one removes it,
so stopping twice differs from stopping once. -/
theorem stopStreaming_twice_duplicate_node :
    streams (run State.init [Op.startStreamingWindow "a" (Negotiation.created 5),
      Op.startStreamingWindow "b" (Negotiation.created 5)]) = [(5, windowMap), (5, windowMap)] ∧
    streams (run State.init [Op.startStreamingWindow "a" (Negotiation.created 5),
      Op.startStreamingWindow "b" (Negotiation.created 5), Op.stopStreaming 5])
      = [(5, windowMap)] ∧
    streams (run State.init [Op.startStreamingWindow "a" (Negotiation.created 5),
      Op.startStreamingWindow "b" (Negotiation.created 5), Op.stopStreaming 5,
      Op.stopStreaming 5]) = [] ∧
    run State.init [Op.startStreamingWindow "a" (Negotiation.created 5),
      Op.startStreamingWindow "b" (Negotiation.created 5), Op.stopStreaming 5,
      Op.stopStreaming 5] ≠
    run State.init [Op.startStreamingWindow "a" (Negotiation.created 5),
      Op.startStreamingWindow "b" (Negotiation.created 5), Op.stopStreaming 5] := by
  decide

/-- C8, amended: in every state in which node id `nodeid` occurs at most once in
the active list, `stopStreaming(nodeid)` performed twice yields the same state as
performed once, and after the first call no stream with that node id is left for
the second call to remove. -/
theorem stopStreaming_twice (s : State) (nodeid : Nat)
    (h : (s.m_streams.map (fun st => st.nodeId)).count nodeid ≤ 1) :
    stopStreaming (stopStreaming s nodeid) nodeid = stopStreaming s nodeid ∧
    nodeid ∉ (stopStreaming s nodeid).m_streams.map (fun st => st.nodeId) := by
  have hnot := not_mem_eraseNode nodeid s.m_streams h
  have herase := eraseNode_of_not_mem nodeid _ hnot
  by_cases hempty : eraseNode nodeid s.m_streams = []
  · simp [stopStreaming, stopAllStreaming, hempty, eraseNode]
  · have hb : (eraseNode nodeid s.m_streams).isEmpty = false := by
      simpa using hempty
    simp only [stopStreaming, hb, herase, Bool.false_eq_true, if_false]
    exact ⟨trivial, hnot⟩

/-- C8, amended, at the state with the single stream of node id 42: the list has
one occurrence of 42, and stopping it twice equals stopping it once. -/
theorem stopStreaming_twice_witness :
    (((startStreamingWindow State.init "win-7" (Negotiation.created 42)).1.m_streams.map
      (fun st => st.nodeId)).count 42 ≤ 1) ∧
    stopStreaming (stopStreaming
      (startStreamingWindow State.init "win-7" (Negotiation.created 42)).1 42) 42 =
    stopStreaming (startStreamingWindow State.init "win-7" (Negotiation.created 42)).1 42 :=
  ⟨by decide,
    (stopStreaming_twice (startStreamingWindow State.init "win-7" (Negotiation.created 42)).1 42
      (by decide)).1⟩

/-- C3, where the code departs from it: with an empty output map,
`startStreamingOutput(7, Hidden)` looks up a null output pointer, still issues
`createOutputStream` with it and waits for the negotiation.  If `created(3)` arrives
it returns true and records a stream (with the attribute map of a window); on a
timeout it returns false, the request having been issued all the same. -/
theorem startStreamingOutput_unknown_output :
    QMap.find? State.init.m_outputMap 7 = none ∧
    (startStreamingOutput State.init 7 CursorMode.Hidden (Negotiation.created 3)).2 = true ∧
    (startStreamingOutput State.init 7 CursorMode.Hidden (Negotiation.created 3)).1.requests =
      [CaptureRequest.createOutputStream none CursorMode.Hidden] ∧
    streams (startStreamingOutput State.init 7 CursorMode.Hidden (Negotiation.created 3)).1 =
      [(3, windowMap)] ∧
    (startStreamingOutput State.init 7 CursorMode.Hidden Negotiation.timeout).2 = false ∧
    (startStreamingOutput State.init 7 CursorMode.Hidden Negotiation.timeout).1.requests =
      [CaptureRequest.createOutputStream none CursorMode.Hidden] := by
  decide

/-- C4, where the code departs from it: `startStreamingWindow` ended by the timeout
returns false and records nothing, but its handlers stay connected, so a later
`created(9)` of the same stream appends a stream and sets the input flag; for an
output capture it also moves `m_streamedScreenPosition`. -/
theorem lateCreated_after_timeout :
    (startStreamingWindow State.init "win-7" Negotiation.timeout).2 = false ∧
    (startStreamingWindow State.init "win-7" Negotiation.timeout).1.m_streams = [] ∧
    (startStreamingWindow State.init "win-7" Negotiation.timeout).1.m_streamInput = false ∧
    streams (lateCreated (startStreamingWindow State.init "win-7" Negotiation.timeout).1 0 9) =
      [(9, windowMap)] ∧
    (lateCreated (startStreamingWindow State.init "win-7" Negotiation.timeout).1 0 9).m_streamInput
      = true ∧
    (startStreamingOutput
      (outputRun State.init [OutputEvent.announced 5 2,
        OutputEvent.changed 0 ⟨1920, 1080⟩ ⟨100, 50⟩]) 5 CursorMode.Hidden
      Negotiation.timeout).1.m_streamedScreenPosition = ⟨0, 0⟩ ∧
    (lateCreated (startStreamingOutput
      (outputRun State.init [OutputEvent.announced 5 2,
        OutputEvent.changed 0 ⟨1920, 1080⟩ ⟨100, 50⟩]) 5 CursorMode.Hidden
      Negotiation.timeout).1 0 42).m_streamedScreenPosition = ⟨100, 50⟩ := by
  decide

/-- C2: a negotiation that ends with `created(n)` makes `startStreaming` return true
and appends one stream with node id `n` at the end of the list, the earlier streams
staying in place.  For an output that is in the map, with pixel size and global
position as stored in its output object, the attribute map is exactly
`screenpositionX`, `screenpositionY`, `size`, `source_type = Monitor`; for a window
it is exactly `screenpositionX = 0`, `screenpositionY = 0`, `source_type = Window`,
without a `size` key. -/
theorem startStreaming_created (s : State) (n : Nat) :
    (∀ stream output, (startStreaming s stream output (Negotiation.created n)).2 = true ∧
      ∃ map, (startStreaming s stream output (Negotiation.created n)).1.m_streams =
        s.m_streams ++ [{ stream := stream, nodeId := n, map := map }]) ∧
    (∀ outputName mode wo o obj,
      QMap.find? s.m_outputMap outputName = some wo → wo.m_output = some o →
      s.outputObjects[o]? = some obj →
      (startStreamingOutput s outputName mode (Negotiation.created n)).2 = true ∧
      (startStreamingOutput s outputName mode (Negotiation.created n)).1.m_streams =
        s.m_streams ++ [Stream.mk s.requests.length n
          [("screenpositionX", QVariant.int obj.globalPosition.x),
            ("screenpositionY", QVariant.int obj.globalPosition.y),
            ("size", QVariant.size obj.pixelSize),
            ("source_type", QVariant.uint SourceType.Monitor)]]) ∧
    (∀ winid,
      (startStreamingWindow s winid (Negotiation.created n)).2 = true ∧
      (startStreamingWindow s winid (Negotiation.created n)).1.m_streams =
        s.m_streams ++ [Stream.mk s.requests.length n
          [("screenpositionX", QVariant.int 0), ("screenpositionY", QVariant.int 0),
            ("source_type", QVariant.uint SourceType.Window)]] ∧
      QMap.find? windowMap "size" = none) := by
  refine ⟨?_, ?_, ?_⟩
  · intro stream output
    refine ⟨rfl, ?_⟩
    cases output with
    | none => exact ⟨_, rfl⟩
    | some o => exact ⟨_, rfl⟩
  · intro outputName mode wo o obj hfind hout hobj
    refine ⟨rfl, ?_⟩
    have hget : s.outputObjects.getD o ⟨0, 0, ⟨-1, -1⟩, ⟨0, 0⟩⟩ = obj := by
      simp [List.getD_eq_getElem?_getD, hobj]
    simp only [startStreamingOutput, QMap.value, hfind, Option.getD_some, hout,
      createOutputStream, startStreaming, onCreated, hget, startStreamingInput]
    rfl
  · intro winid
    exact ⟨rfl, rfl, by decide⟩

/-- C2, at the scenario of the specification: output 5 (version 2) announced and
changed with size 1920x1080 at (0,0), then `startStreamingOutput(5, Hidden)` ending
with `created(42)` gives `streams() = [(42, ...)]`; and `startStreamingWindow("win-7")`
ending with `created(9)` gives a window stream without `size`. -/
theorem startStreaming_created_witness :
    streams (startStreamingOutput
      (outputRun State.init [OutputEvent.announced 5 2,
        OutputEvent.changed 0 ⟨1920, 1080⟩ ⟨0, 0⟩]) 5 CursorMode.Hidden
      (Negotiation.created 42)).1 =
      [(42, [("screenpositionX", QVariant.int 0), ("screenpositionY", QVariant.int 0),
        ("size", QVariant.size ⟨1920, 1080⟩),
        ("source_type", QVariant.uint SourceType.Monitor)])] ∧
    streams (startStreamingWindow State.init "win-7" (Negotiation.created 9)).1 =
      [(9, [("screenpositionX", QVariant.int 0), ("screenpositionY", QVariant.int 0),
        ("source_type", QVariant.uint SourceType.Window)])] := by
  have h := startStreaming_created
    (outputRun State.init [OutputEvent.announced 5 2,
      OutputEvent.changed 0 ⟨1920, 1080⟩ ⟨0, 0⟩]) 42
  have h1 := (h.2.1 5 CursorMode.Hidden ⟨some 0, 5, 2⟩ 0 ⟨5, 2, ⟨1920, 1080⟩, ⟨0, 0⟩⟩
    (by decide) rfl (by decide)).2
  have h2 := ((startStreaming_created State.init 9).2.2 "win-7").2.1
  constructor
  · rw [streams, h1]
    decide
  · rw [streams, h2]
    decide

/-- C1 as stated fails: after `fakeInputAnnounced` and `startStreamingInput` the
input flag is true while the stream list is empty, and a pointer button press is
forwarded to the fake-input capability although no stream is active. -/
theorem streamInput_without_stream :
    (run State.init [Op.fakeInputAnnounced, Op.startStreamingInput]).m_streamInput = true ∧
    (run State.init [Op.fakeInputAnnounced, Op.startStreamingInput]).m_streams = [] ∧
    isStreamingEnabled (run State.init [Op.fakeInputAnnounced, Op.startStreamingInput]) = false ∧
    (requestPointerButtonPress
      (run State.init [Op.fakeInputAnnounced, Op.startStreamingInput]) 272).fakeInputCalls =
      [FakeInputCall.requestPointerButtonPress 272] := by
  decide

/-- C1, amended: in every state reached from the initial state by any sequence of
steps, a non-empty stream list implies that the input flag is true.  When
`startStreamingInput` is not among the steps, the flag is true if and only if the
list is non-empty, and in a state with an empty list every input request leaves the
state as it is, so nothing is forwarded. -/
theorem streamInput_of_streams (ops : List Op) :
    ((run State.init ops).m_streams ≠ [] → (run State.init ops).m_streamInput = true) ∧
    (Op.startStreamingInput ∉ ops →
      ((run State.init ops).m_streamInput = true ↔ (run State.init ops).m_streams ≠ []) ∧
      ((run State.init ops).m_streams = [] →
        ∀ r, requestInput (run State.init ops) r = run State.init ops)) := by
  have hinit : Exact State.init := by simp [Exact, State.init]
  refine ⟨run_gate ops State.init (exact_gate _ hinit), ?_⟩
  intro hops
  have hex := run_exact ops hops State.init hinit
  refine ⟨hex, ?_⟩
  intro hnil r
  apply requestInput_of_flag_false
  cases hflag : (run State.init ops).m_streamInput with
  | false => rfl
  | true => exact absurd hnil (hex.mp hflag)

/-- C1, amended, on a run: a window capture that ends with `created(9)`, then the
`closed` signal of its stream.  The flag is true with the stream active and false
again, with no forwarding, once the list is empty. -/
theorem streamInput_of_streams_witness :
    (run State.init [Op.fakeInputAnnounced,
      Op.startStreamingWindow "win-7" (Negotiation.created 9)]).m_streams ≠ [] ∧
    (run State.init [Op.fakeInputAnnounced,
      Op.startStreamingWindow "win-7" (Negotiation.created 9)]).m_streamInput = true ∧
    Op.startStreamingInput ∉ [Op.fakeInputAnnounced,
      Op.startStreamingWindow "win-7" (Negotiation.created 9), Op.streamClosed 0] ∧
    (run State.init [Op.fakeInputAnnounced,
      Op.startStreamingWindow "win-7" (Negotiation.created 9), Op.streamClosed 0]).m_streams
      = [] ∧
    requestInput (run State.init [Op.fakeInputAnnounced,
      Op.startStreamingWindow "win-7" (Negotiation.created 9), Op.streamClosed 0])
      (InputRequest.pointerButtonPress 272) =
    run State.init [Op.fakeInputAnnounced,
      Op.startStreamingWindow "win-7" (Negotiation.created 9), Op.streamClosed 0] :=
  have h1 : (run State.init [Op.fakeInputAnnounced,
      Op.startStreamingWindow "win-7" (Negotiation.created 9)]).m_streams ≠ [] := by decide
  have h2 : Op.startStreamingInput ∉ [Op.fakeInputAnnounced,
      Op.startStreamingWindow "win-7" (Negotiation.created 9), Op.streamClosed 0] := by
    simp
  have h3 : (run State.init [Op.fakeInputAnnounced,
      Op.startStreamingWindow "win-7" (Negotiation.created 9), Op.streamClosed 0]).m_streams
      = [] := by decide
  ⟨h1, (streamInput_of_streams _).1 h1, h2, h3,
    ((streamInput_of_streams _).2 h2).2 h3 (InputRequest.pointerButtonPress 272)⟩

/-- C5 as stated fails.  After announce, changed, remove, a further `changed` of the
still-bound output object puts the entry back, so name 1 is visible after its
remove event.  And after announce, changed, remove, announce the name has been
announced, has received a changed event and its most recent event is not a remove,
yet it is not visible. -/
theorem screens_after_remove :
    QMap.keys (screens (outputRun State.init [OutputEvent.announced 1 1,
      OutputEvent.changed 0 ⟨1920, 1080⟩ ⟨0, 0⟩, OutputEvent.removed 1])) = [] ∧
    QMap.keys (screens (outputRun State.init [OutputEvent.announced 1 1,
      OutputEvent.changed 0 ⟨1920, 1080⟩ ⟨0, 0⟩, OutputEvent.removed 1,
      OutputEvent.changed 0 ⟨1920, 1080⟩ ⟨0, 0⟩])) = [1] ∧
    QMap.keys (screens (outputRun State.init [OutputEvent.announced 1 1,
      OutputEvent.changed 0 ⟨1920, 1080⟩ ⟨0, 0⟩, OutputEvent.removed 1,
      OutputEvent.announced 1 1])) = [] := by
  decide

/-- C5, amended: after any sequence of output events, a name is a key of `screens()`
if and only if the sequence contains a `changed` event of an output object that was
announced for that name earlier in the sequence, with no remove event of the name
after that `changed` event.  So an output that was announced but never changed is
not visible, a name is not visible right after its remove event, and it is visible
again once a later `changed` event of a still-bound object for it arrives. -/
theorem screens_after_output_events (evs : List OutputEvent) (n : Nat) :
    n ∈ QMap.keys (screens (outputRun State.init evs)) ↔
      ∃ pre o sz pos post, evs = pre ++ OutputEvent.changed o sz pos :: post ∧
        boundName pre o = some n ∧ OutputEvent.removed n ∉ post := by
  have h := mem_keys_outputRun evs State.init List.Pairwise.nil n
  simp only [screens]
  rw [h]
  constructor
  · rintro (⟨hk, _⟩ | h2)
    · simp [State.init, QMap.keys] at hk
    · simpa [objectNames, State.init, boundName] using h2
  · intro h2
    right
    simpa [objectNames, State.init, boundName] using h2

end WaylandIntegration
